import Mathlib

/-!
Verification of the dplex typed filter / CRUD service layer.

This file shallowly embeds the core of the repository:

* `src/dplex/repositories/query_builder.py` — `QueryBuilder` and its
  `where_*` / `limit` / `offset` / `find_one` methods;
* `src/dplex/repositories/base_repository.py` — `BaseDBRepo`
  (`execute_typed_query`, `execute_typed_count`, id-based primitives);
* `src/dplex/services/filters.py` — the filter dataclasses
  (`StringFilter`, `NumberFilter`, `BooleanFilter`, `BaseDateTimeFilter`
  and its date/datetime/timestamp specializations);
* `src/dplex/services/filter_applier.py` — `FilterApplier` (typed
  application, type detection, schema application);
* `src/dplex/services/base_filterable_fields.py` —
  `BaseFilterableFields.get_active_filters`;
* `src/dplex/services/dp_service.py` / `base_service.py` — the service
  façade (`_make_update_dict`, `update_by_id`, `update_by_id_with_fields`,
  `delete_by_ids`, `paginate`, `_get_model_column`).

Python runtime scalars are modelled by the closed inductive `PyScalar`;
filter-payload operator values (scalar, sequence of scalars, or a
two-element range) by `PyVal`.  SQL predicate evaluation (an external
collaborator in the source, SQLAlchemy) is modelled by `evalCond` with
standard SQL `WHERE` semantics (a NULL comparison never matches).
-/

namespace Dplex

/-- Model of the Python scalar values stored in database cells and
carried by single-value filter operators: None, bool, int, float, str,
date, datetime.  Floats carry an integer mantissa: they are only ever
inspected for their shape and compared numerically, never computed
with.  Dates and datetimes carry a chronologically ordered `Nat`. -/
inductive PyScalar where
  | sNone : PyScalar
  | sBool : Bool → PyScalar
  | sInt : Int → PyScalar
  | sFloat : Int → PyScalar
  | sStr : String → PyScalar
  | sDate : Nat → PyScalar
  | sDateTime : Nat → PyScalar
deriving DecidableEq, Repr

/-- An operator value inside a generic filter payload: a scalar or a
sequence of scalars (`in_` / `not_in` lists, `between` ranges).  This is
the store-agnostic value grammar of the detection input. -/
inductive PyVal where
  | atom : PyScalar → PyVal
  | vList : List PyScalar → PyVal
deriving DecidableEq, Repr

/-- `isinstance(value, (datetime.datetime, datetime.date))` on a
scalar — the shape test of `_detect_comparison_filter_type` and
`_detect_filter_type_by_value`. -/
def PyScalar.isDateShaped : PyScalar → Bool
  | .sDate _ => true
  | .sDateTime _ => true
  | _ => false

/-- Date-shape test lifted to payload values (a sequence is never
date-shaped, exactly as a Python list never passes `isinstance` against
the date types). -/
def PyVal.isDateShaped : PyVal → Bool
  | .atom s => s.isDateShaped
  | .vList _ => false

/-- Python truthiness on payload values (used by the detection loop
that reads `if field_value[key]`). -/
def PyVal.truthy : PyVal → Bool
  | .atom .sNone => false
  | .atom (.sBool b) => b
  | .atom (.sInt n) => n != 0
  | .atom (.sFloat n) => n != 0
  | .atom (.sStr s) => s.length != 0
  | .atom (.sDate _) => true
  | .atom (.sDateTime _) => true
  | .vList xs => xs.length != 0

/-- Strict comparison between two stored scalars, as the SQL
collaborator would order them: numerics (int/float) compare
numerically, strings lexicographically, dates and datetimes
chronologically; values of incomparable kinds never compare. -/
def PyScalar.ltB : PyScalar → PyScalar → Bool
  | .sInt a, .sInt b => a < b
  | .sInt a, .sFloat b => a < b
  | .sFloat a, .sInt b => a < b
  | .sFloat a, .sFloat b => a < b
  | .sStr a, .sStr b => a < b
  | .sDate a, .sDate b => a < b
  | .sDateTime a, .sDateTime b => a < b
  | .sBool a, .sBool b => !a && b
  | _, _ => false

/-- Non-strict comparison: `a ≤ b` iff `a = b` or `a < b`. -/
def PyScalar.leB (a b : PyScalar) : Bool :=
  a == b || PyScalar.ltB a b

/-- A database row: an association list from column name to cell, where
`none` is SQL NULL. -/
abbrev Row := List (String × Option PyScalar)

/-- First-match association-list lookup (Python `dict` access /
attribute access on a model). -/
def lookupKey {α : Type} : List (String × α) → String → Option α
  | [], _ => none
  | (k1, v) :: tl, k => if k1 = k then some v else lookupKey tl k

/-- The cell a column holds in a row; a column absent from the row reads
as NULL (rows always carry every column of their table, so this case is
inert). -/
def cellOf (r : Row) (col : String) : Option PyScalar :=
  (lookupKey r col).getD none

/-- SQL `LIKE` pattern matching restricted to the `%` wildcard (the only
wildcard the source ever generates: `contains` → `%v%`,
`starts_with` → `v%`, `ends_with` → `%v`): after the leading literal is
consumed, each remaining literal segment must occur in order, the last
one as a suffix. -/
def likeSegments (s : String) : List String → Bool
  | [] => true
  | [last] => s.endsWith last
  | seg :: rest =>
    if seg = "" then likeSegments s rest
    else
      match s.splitOn seg with
      | [] => false
      | [_] => false
      | _ :: tl => likeSegments (String.intercalate seg tl) rest

/-- `column LIKE pattern` for `%`-only patterns. -/
def likeMatch (pattern s : String) : Bool :=
  match pattern.splitOn "%" with
  | [] => s = ""
  | [lit] => s = lit
  | first :: rest => s.startsWith first && likeSegments (s.drop first.length) rest

/-- The predicates the query builder can accumulate
(`QueryBuilder.filters` entries), one constructor per `where_*`
method of `src/dplex/repositories/query_builder.py`. -/
inductive Cond where
  | eqC : String → PyScalar → Cond
  | neC : String → PyScalar → Cond
  | inC : String → List PyScalar → Cond
  | notInC : String → List PyScalar → Cond
  | isNullC : String → Cond
  | isNotNullC : String → Cond
  | gtC : String → PyScalar → Cond
  | gteC : String → PyScalar → Cond
  | ltC : String → PyScalar → Cond
  | lteC : String → PyScalar → Cond
  | betweenC : String → PyScalar → PyScalar → Cond
  | likeC : String → String → Cond
  | ilikeC : String → String → Cond
deriving DecidableEq, Repr

/-- SQL `WHERE` evaluation of one predicate against a row.  A NULL cell
makes every comparison UNKNOWN, which a `WHERE` clause treats as
not-matching; `IS NULL` / `IS NOT NULL` test nullness itself.
`column IN ()` (the empty list) is SQLAlchemy's always-false
expression. -/
def evalCond (c : Cond) (r : Row) : Bool :=
  match c with
  | .eqC col v =>
    match cellOf r col with
    | some w => w == v
    | none => false
  | .neC col v =>
    match cellOf r col with
    | some w => w != v
    | none => false
  | .inC col vs =>
    match cellOf r col with
    | some w => vs.any (fun v => w == v)
    | none => false
  | .notInC col vs =>
    match cellOf r col with
    | some w => !vs.any (fun v => w == v)
    | none => false
  | .isNullC col => (cellOf r col).isNone
  | .isNotNullC col => (cellOf r col).isSome
  | .gtC col v =>
    match cellOf r col with
    | some w => PyScalar.ltB v w
    | none => false
  | .gteC col v =>
    match cellOf r col with
    | some w => PyScalar.leB v w
    | none => false
  | .ltC col v =>
    match cellOf r col with
    | some w => PyScalar.ltB w v
    | none => false
  | .lteC col v =>
    match cellOf r col with
    | some w => PyScalar.leB w v
    | none => false
  | .betweenC col a b =>
    match cellOf r col with
    | some w => PyScalar.leB a w && PyScalar.leB w b
    | none => false
  | .likeC col pat =>
    match cellOf r col with
    | some (.sStr s) => likeMatch pat s
    | _ => false
  | .ilikeC col pat =>
    match cellOf r col with
    | some (.sStr s) => likeMatch pat.toLower s.toLower
    | _ => false

/-- A row matches a builder's filter list iff it satisfies every
predicate (the source conjoins them with `and_`). -/
def rowMatches (conds : List Cond) (r : Row) : Bool :=
  conds.all (fun c => evalCond c r)

/-- `QueryBuilder` state from `src/dplex/repositories/query_builder.py`:
accumulated predicates, limit, offset, and ordering clauses (an ordering
clause is a column name plus a descending flag, as built by
`order_by`). -/
structure QueryBuilder where
  filters : List Cond
  limit_value : Option Int
  offset_value : Option Int
  order_by_clauses : List (String × Bool)
deriving DecidableEq, Repr

/-- A freshly constructed builder (`QueryBuilder.__init__`). -/
def QueryBuilder.empty : QueryBuilder :=
  ⟨[], none, none, []⟩

/-- `QueryBuilder.where`: append one ready-made condition. -/
def QueryBuilder.where (qb : QueryBuilder) (c : Cond) : QueryBuilder :=
  { qb with filters := qb.filters ++ [c] }

/-- `QueryBuilder.where_eq`. -/
def QueryBuilder.where_eq (qb : QueryBuilder) (col : String) (v : PyScalar) : QueryBuilder :=
  qb.where (.eqC col v)

/-- `QueryBuilder.where_ne`. -/
def QueryBuilder.where_ne (qb : QueryBuilder) (col : String) (v : PyScalar) : QueryBuilder :=
  qb.where (.neC col v)

/-- `QueryBuilder.where_in`: on an empty value list the source still
appends `column.in_([])`, SQLAlchemy's always-false condition. -/
def QueryBuilder.where_in (qb : QueryBuilder) (col : String) (vs : List PyScalar) : QueryBuilder :=
  if vs.isEmpty then qb.where (.inC col []) else qb.where (.inC col vs)

/-- `QueryBuilder.where_not_in`: on an empty value list the source
returns `self` unchanged — no predicate is emitted. -/
def QueryBuilder.where_not_in (qb : QueryBuilder) (col : String) (vs : List PyScalar) : QueryBuilder :=
  if vs.isEmpty then qb else qb.where (.notInC col vs)

/-- `QueryBuilder.where_is_null`. -/
def QueryBuilder.where_is_null (qb : QueryBuilder) (col : String) : QueryBuilder :=
  qb.where (.isNullC col)

/-- `QueryBuilder.where_is_not_null`. -/
def QueryBuilder.where_is_not_null (qb : QueryBuilder) (col : String) : QueryBuilder :=
  qb.where (.isNotNullC col)

/-- `QueryBuilder.where_like`. -/
def QueryBuilder.where_like (qb : QueryBuilder) (col : String) (pat : String) : QueryBuilder :=
  qb.where (.likeC col pat)

/-- `QueryBuilder.where_ilike`. -/
def QueryBuilder.where_ilike (qb : QueryBuilder) (col : String) (pat : String) : QueryBuilder :=
  qb.where (.ilikeC col pat)

/-- `QueryBuilder.where_between`. -/
def QueryBuilder.where_between (qb : QueryBuilder) (col : String) (a b : PyScalar) : QueryBuilder :=
  qb.where (.betweenC col a b)

/-- `QueryBuilder.where_gt`. -/
def QueryBuilder.where_gt (qb : QueryBuilder) (col : String) (v : PyScalar) : QueryBuilder :=
  qb.where (.gtC col v)

/-- `QueryBuilder.where_gte`. -/
def QueryBuilder.where_gte (qb : QueryBuilder) (col : String) (v : PyScalar) : QueryBuilder :=
  qb.where (.gteC col v)

/-- `QueryBuilder.where_lt`. -/
def QueryBuilder.where_lt (qb : QueryBuilder) (col : String) (v : PyScalar) : QueryBuilder :=
  qb.where (.ltC col v)

/-- `QueryBuilder.where_lte`. -/
def QueryBuilder.where_lte (qb : QueryBuilder) (col : String) (v : PyScalar) : QueryBuilder :=
  qb.where (.lteC col v)

/-- `QueryBuilder.limit`: raises `ValueError` on a negative limit. -/
def QueryBuilder.limit (qb : QueryBuilder) (n : Int) : Except String QueryBuilder :=
  if n < 0 then .error "Limit must be non-negative"
  else .ok { qb with limit_value := some n }

/-- `QueryBuilder.offset`: raises `ValueError` on a negative offset. -/
def QueryBuilder.offset (qb : QueryBuilder) (n : Int) : Except String QueryBuilder :=
  if n < 0 then .error "Offset must be non-negative"
  else .ok { qb with offset_value := some n }

/-- `QueryBuilder.order_by`: append one ordering clause. -/
def QueryBuilder.order_by (qb : QueryBuilder) (col : String) (desc : Bool) : QueryBuilder :=
  { qb with order_by_clauses := qb.order_by_clauses ++ [(col, desc)] }

/-! ## Repository layer (`src/dplex/repositories/base_repository.py`) -/

/-- A stored entity: its primary key and its row of columns.  Keys are
modelled as `Nat` (the source allows int / str / UUID keys; only their
decidable equality matters here). -/
structure Entity where
  id : Nat
  fields : Row
deriving DecidableEq, Repr

/-- The table the opaque storage collaborator holds, in insertion
order. -/
abbrev Store := List Entity

/-- One ordering key for a pair of rows: compare the named column's
cells, flipping for a descending clause; NULL sorts before every
value (the collaborator's default null placement). -/
def cellLe (desc : Bool) (x y : Option PyScalar) : Bool :=
  match x, y with
  | none, none => true
  | none, some _ => !desc
  | some _, none => desc
  | some a, some b => if desc then !PyScalar.ltB a b else !PyScalar.ltB b a

/-- Row order induced by a clause list: the first clause whose cells
differ decides; rows equal under every clause compare `≤` both ways. -/
def rowLe (clauses : List (String × Bool)) (r1 r2 : Row) : Bool :=
  match clauses with
  | [] => true
  | (col, desc) :: rest =>
    let x := cellOf r1 col
    let y := cellOf r2 col
    if x = y then rowLe rest r1 r2
    else cellLe desc x y

/-- Stable insertion into a list sorted by `le`. -/
def insertBy {α : Type} (le : α → α → Bool) (a : α) : List α → List α
  | [] => [a]
  | b :: tl => if le b a then b :: insertBy le a tl else a :: b :: tl

/-- Stable insertion sort — the model of the collaborator's `ORDER BY`
execution. -/
def sortBy {α : Type} (le : α → α → Bool) : List α → List α
  | [] => []
  | a :: tl => insertBy le a (sortBy le tl)

/-- `BaseDBRepo.execute_typed_query`: select rows matching the
conjunction of the builder's predicates, apply ordering clauses when
present, then `OFFSET` and `LIMIT`. -/
def execute_typed_query (store : Store) (b : QueryBuilder) : List Entity :=
  let rows := store.filter (fun e => rowMatches b.filters e.fields)
  let rows :=
    if b.order_by_clauses.isEmpty then rows
    else sortBy (fun e1 e2 => rowLe b.order_by_clauses e1.fields e2.fields) rows
  let rows :=
    match b.offset_value with
    | some o => rows.drop o.toNat
    | none => rows
  match b.limit_value with
  | some l => rows.take l.toNat
  | none => rows

/-- `BaseDBRepo.execute_typed_count`: `SELECT count(*)` with only the
builder's predicates applied — limit, offset and ordering are ignored
by construction. -/
def execute_typed_count (store : Store) (b : QueryBuilder) : Nat :=
  (store.filter (fun e => rowMatches b.filters e.fields)).length

/-- `QueryBuilder.find_one`, parametrized by the execution of
`find_all` (which may raise inside the storage collaborator): save the
current limit, set it to 1, run, return the first row or `None`, and in
a `finally` block restore the saved limit.  The call returns the result
together with the builder's final state. -/
def find_one (exec : QueryBuilder → Except String (List Entity)) (qb : QueryBuilder) :
    Except String (Option Entity) × QueryBuilder :=
  let originalLimit := qb.limit_value
  let qb1 := { qb with limit_value := some 1 }
  match exec qb1 with
  | .ok results => (.ok results.head?, { qb1 with limit_value := originalLimit })
  | .error e => (.error e, { qb1 with limit_value := originalLimit })

/-- `BaseDBRepo.find_by_id`: `query().where(id == entity_id).find_one()`
— the first stored entity with the given key. -/
def repo_find_by_id (store : Store) (entity_id : Nat) : Option Entity :=
  store.find? (fun e => e.id == entity_id)

/-- `BaseDBRepo.find_by_ids`: `WHERE id IN ids` — every stored entity
whose key occurs in the list. -/
def repo_find_by_ids (store : Store) (entity_ids : List Nat) : List Entity :=
  store.filter (fun e => entity_ids.contains e.id)

/-- `BaseDBRepo.delete_by_ids`: `DELETE WHERE id IN ids`. -/
def repo_delete_by_ids (store : Store) (entity_ids : List Nat) : Store :=
  store.filter (fun e => !entity_ids.contains e.id)

/-- `BaseDBRepo.exists_by_id`: count the rows with the given key and
test positivity. -/
def repo_exists_by_id (store : Store) (entity_id : Nat) : Bool :=
  0 < (store.filter (fun e => e.id == entity_id)).length

/-- Overwrite one column of a row (one `SET col = v` of an `UPDATE`
statement); the column is replaced in place when present. -/
def setField : Row → String → Option PyScalar → Row
  | [], k, v => [(k, v)]
  | (k1, v1) :: tl, k, v =>
    if k1 = k then (k1, v) :: tl else (k1, v1) :: setField tl k v

/-- Apply a flat field→value map to a row, one column at a time. -/
def applyValues (fields : Row) (values : Row) : Row :=
  values.foldl (fun fs kv => setField fs kv.1 kv.2) fields

/-- Modelled from the spec: `DPRepo.update_by_id` (the repository module
`dplex/dp_repo.py` is not under `src/`; §4.4 of the spec specifies
`update_by_id(key, field_values)` — "apply a flat field→value map") —
an `UPDATE ... WHERE id = entity_id` setting exactly the given
columns. -/
def repo_update_by_id (store : Store) (entity_id : Nat) (values : Row) : Store :=
  store.map (fun e =>
    if e.id == entity_id then { e with fields := applyValues e.fields values } else e)

/-! ## Filter dataclasses (`src/dplex/services/filters.py`) -/

/-- The operator fields shared by every filter dataclass and read by
`FilterApplier._apply_common_ops`: `eq`, `ne`, `in_`, `not_in`,
`is_null`, `is_not_null`. -/
structure CommonOps where
  eq : Option PyScalar
  ne : Option PyScalar
  in_ : Option (List PyScalar)
  not_in : Option (List PyScalar)
  is_null : Option Bool
  is_not_null : Option Bool
deriving DecidableEq, Repr

/-- All-`None` common operators. -/
def CommonOps.none_ : CommonOps :=
  ⟨none, none, none, none, none, none⟩

/-- The ordering operators read by
`FilterApplier._apply_comparison_ops`: `gt`, `gte`, `lt`, `lte`,
`between`. -/
structure ComparisonOps where
  gt : Option PyScalar
  gte : Option PyScalar
  lt : Option PyScalar
  lte : Option PyScalar
  between : Option (PyScalar × PyScalar)
deriving DecidableEq, Repr

/-- All-`None` comparison operators. -/
def ComparisonOps.none_ : ComparisonOps :=
  ⟨none, none, none, none, none⟩

/-- `StringFilter` dataclass: common operators plus the pattern
operators. -/
structure StringFilter extends CommonOps where
  like : Option String
  ilike : Option String
  contains : Option String
  icontains : Option String
  starts_with : Option String
  ends_with : Option String
deriving DecidableEq, Repr

/-- `NumberFilter` dataclass: common plus comparison operators. -/
structure NumberFilter extends CommonOps, ComparisonOps
deriving DecidableEq, Repr

/-- `BaseDateTimeFilter` dataclass (and its `DateFilter` /
`DateTimeFilter` / `TimestampFilter` specializations, which add no
fields): common plus comparison operators plus the documented
`from_` / `to` alias fields.  Being a plain dataclass it has no
post-init hook: nothing copies `from_` into `gte` or `to` into
`lte`. -/
structure DateTimeFilter extends CommonOps, ComparisonOps where
  from_ : Option PyScalar
  to_ : Option PyScalar
deriving DecidableEq, Repr

/-- The all-`None` temporal filter. -/
def DateTimeFilter.none_ : DateTimeFilter :=
  ⟨CommonOps.none_, ComparisonOps.none_, none, none⟩

/-- `model_post_init` of the *pydantic* `DateTimeFilter` defined in
`src/dplex/services/base_service.py` (lines 76–82): after validation,
a set `from_` with an unset `gte` populates `gte`, and a set `to` with
an unset `lte` populates `lte` (the Python field `to` is spelled `to_`
here because `to` is reserved in Lean).  Only that pydantic variant
runs this hook. -/
def DateTimeFilter.model_post_init (f : DateTimeFilter) : DateTimeFilter :=
  let f :=
    if f.from_.isSome && f.gte.isNone then
      { f with toComparisonOps := { f.toComparisonOps with gte := f.from_ } }
    else f
  if f.to_.isSome && f.lte.isNone then
    { f with toComparisonOps := { f.toComparisonOps with lte := f.to_ } }
  else f

/-- `BooleanFilter` dataclass: only `eq`, `ne`, `is_null`,
`is_not_null` — it has **no** `in_` / `not_in` attributes. -/
structure BooleanFilter where
  eq : Option PyScalar
  ne : Option PyScalar
  is_null : Option Bool
  is_not_null : Option Bool
deriving DecidableEq, Repr

/-! ## FilterApplier (`src/dplex/services/filter_applier.py`) -/

/-- `FilterApplier._apply_common_ops`: apply `eq`, `ne`, `in_`,
`not_in`, `is_null`, `is_not_null` in that order, each only when not
`None` (`is_null` / `is_not_null` additionally only when truthy). -/
def applyCommonOps (qb : QueryBuilder) (col : String) (f : CommonOps) : QueryBuilder :=
  let qb := match f.eq with | some v => qb.where_eq col v | none => qb
  let qb := match f.ne with | some v => qb.where_ne col v | none => qb
  let qb := match f.in_ with | some vs => qb.where_in col vs | none => qb
  let qb := match f.not_in with | some vs => qb.where_not_in col vs | none => qb
  let qb := match f.is_null with | some b => if b then qb.where_is_null col else qb | none => qb
  match f.is_not_null with | some b => if b then qb.where_is_not_null col else qb | none => qb

/-- `FilterApplier._apply_comparison_ops`: apply `gt`, `gte`, `lt`,
`lte`, `between` in that order, each only when not `None`.  Note that
the `from_` / `to` fields of the temporal dataclasses are never
consulted here. -/
def applyComparisonOps (qb : QueryBuilder) (col : String) (f : ComparisonOps) : QueryBuilder :=
  let qb := match f.gt with | some v => qb.where_gt col v | none => qb
  let qb := match f.gte with | some v => qb.where_gte col v | none => qb
  let qb := match f.lt with | some v => qb.where_lt col v | none => qb
  let qb := match f.lte with | some v => qb.where_lte col v | none => qb
  match f.between with | some se => qb.where_between col se.1 se.2 | none => qb

/-- `FilterApplier._apply_string_ops`: `like`, `ilike`, and the
convenience patterns `contains` → `%v%`, `icontains` → `%v%`
(case-insensitive), `starts_with` → `v%`, `ends_with` → `%v`. -/
def applyStringOps (qb : QueryBuilder) (col : String) (f : StringFilter) : QueryBuilder :=
  let qb := match f.like with | some v => qb.where_like col v | none => qb
  let qb := match f.ilike with | some v => qb.where_ilike col v | none => qb
  let qb := match f.contains with | some v => qb.where_like col ("%" ++ v ++ "%") | none => qb
  let qb := match f.icontains with | some v => qb.where_ilike col ("%" ++ v ++ "%") | none => qb
  let qb := match f.starts_with with | some v => qb.where_like col (v ++ "%") | none => qb
  match f.ends_with with | some v => qb.where_like col ("%" ++ v) | none => qb

/-- `FilterApplier.apply_string_filter`: common ops then string ops. -/
def apply_string_filter (qb : QueryBuilder) (col : String) (f : StringFilter) : QueryBuilder :=
  applyStringOps (applyCommonOps qb col f.toCommonOps) col f

/-- `FilterApplier.apply_number_filter`: common ops then comparison
ops. -/
def apply_number_filter (qb : QueryBuilder) (col : String) (f : NumberFilter) : QueryBuilder :=
  applyComparisonOps (applyCommonOps qb col f.toCommonOps) col f.toComparisonOps

/-- `FilterApplier.apply_datetime_filter`: common ops then comparison
ops; the dataclass fields `from_` and `to` are not read anywhere on
this path. -/
def apply_datetime_filter (qb : QueryBuilder) (col : String) (f : DateTimeFilter) : QueryBuilder :=
  applyComparisonOps (applyCommonOps qb col f.toCommonOps) col f.toComparisonOps

/-- `FilterApplier.apply_boolean_filter` delegates to
`_apply_common_ops`, which, after handling `eq` and `ne`, reads
`filter_data.in_` — an attribute the `BooleanFilter` dataclass does not
define, so the call raises `AttributeError`. -/
def apply_boolean_filter (qb : QueryBuilder) (col : String) (f : BooleanFilter) :
    Except String QueryBuilder :=
  let qb := match f.eq with | some v => qb.where_eq col v | none => qb
  let _qb := match f.ne with | some v => qb.where_ne col v | none => qb
  .error "AttributeError: BooleanFilter object has no attribute in_"

/-! ## Type detection (`FilterApplier._detect_filter_type`) -/

/-- A generic field payload: the serialized operator-name → value
mapping handed to detection. -/
abbrev Payload := List (String × PyVal)

/-- `key in field_value`. -/
def hasKey (p : Payload) (k : String) : Bool :=
  (lookupKey p k).isSome

/-- `FilterApplier._STRING_OPS`. -/
def STRING_OPS : List String :=
  ["contains", "icontains", "starts_with", "ends_with", "like", "ilike"]

/-- `FilterApplier._COMPARISON_OPS`. -/
def COMPARISON_OPS : List String :=
  ["gt", "gte", "lt", "lte", "between"]

/-- The concrete filter classes detection can return. -/
inductive FilterKind where
  | stringF : FilterKind
  | numberF : FilterKind
  | dateTimeF : FilterKind
  | booleanF : FilterKind
deriving DecidableEq, Repr

/-- `FilterApplier._detect_filter_type_by_value`: classify by the
runtime shape of a value (`bool` before `int`, as in the source's
isinstance order); any other shape yields `None`. -/
def detect_filter_type_by_value : PyVal → Option FilterKind
  | .atom (.sBool _) => some .booleanF
  | .atom (.sStr _) => some .stringF
  | .atom (.sInt _) => some .numberF
  | .atom (.sFloat _) => some .numberF
  | .atom (.sDate _) => some .dateTimeF
  | .atom (.sDateTime _) => some .dateTimeF
  | _ => none

/-- The value of the first key in the list that is present in the
payload with a non-`None` value (the shape of the
`for key in [...]: if key in fv and fv[key] is not None` loops). -/
def firstNonNullOf (p : Payload) : List String → Option PyVal
  | [] => none
  | k :: rest =>
    match lookupKey p k with
    | some v => if v = .atom .sNone then firstNonNullOf p rest else some v
    | none => firstNonNullOf p rest

/-- The head of the first key in the list that is present in the
payload with a non-empty sequence value (the
`if key in fv and fv[key] and len(fv[key]) > 0` loop over
`in_` / `not_in`). -/
def firstSeqHead (p : Payload) : List String → Option PyScalar
  | [] => none
  | k :: rest =>
    match lookupKey p k with
    | some (.vList (x :: _)) => some x
    | _ => firstSeqHead p rest

/-- `FilterApplier._detect_comparison_filter_type`: the first
present-and-non-`None` value among `gt`, `gte`, `lt`, `lte` decides
(date-shaped → temporal, else numeric); otherwise a non-`None`
`between` decides by the shape of its first element; the default is
`NumberFilter`. -/
def detect_comparison_filter_type (p : Payload) : FilterKind :=
  match firstNonNullOf p ["gt", "gte", "lt", "lte"] with
  | some v => if v.isDateShaped then .dateTimeF else .numberF
  | none =>
    match lookupKey p "between" with
    | some (.vList (x :: _)) => if x.isDateShaped then .dateTimeF else .numberF
    | _ => .numberF

/-- `FilterApplier._detect_filter_type`: string operators win, then
comparison operators, then the shape of the first non-`None` `eq` / `ne`
value, then the shape of the first element of a non-empty `in_` /
`not_in`; otherwise (only nullness keys, or nothing recognizable) the
outcome is `None`. -/
def detect_filter_type (p : Payload) : Option FilterKind :=
  if STRING_OPS.any (hasKey p) then some .stringF
  else if COMPARISON_OPS.any (hasKey p) then some (detect_comparison_filter_type p)
  else if ["eq", "ne", "in_", "not_in"].any (hasKey p) then
    match firstNonNullOf p ["eq", "ne"] with
    | some v => detect_filter_type_by_value v
    | none =>
      match firstSeqHead p ["in_", "not_in"] with
      | some x => detect_filter_type_by_value (.atom x)
      | none => none
  else none

/-! ## Building filter instances from payloads
(`filter_type(**field_value)` in `_apply_filter_by_type`; the
dataclasses perform no runtime validation, so each field simply takes
the payload's value for its key, `None` when absent). -/

/-- Read a scalar-typed operator from the payload (`None` when absent
or explicitly null; a sequence where a scalar is expected is outside
the dump grammar of the typed dataclasses). -/
def optScalar (p : Payload) (k : String) : Option PyScalar :=
  match lookupKey p k with
  | some (.atom .sNone) => none
  | some (.atom s) => some s
  | _ => none

/-- Read a string-typed operator from the payload. -/
def optStr (p : Payload) (k : String) : Option String :=
  match lookupKey p k with
  | some (.atom (.sStr s)) => some s
  | _ => none

/-- Read a list-typed operator (`in_` / `not_in`) from the payload. -/
def optList (p : Payload) (k : String) : Option (List PyScalar) :=
  match lookupKey p k with
  | some (.vList xs) => some xs
  | _ => none

/-- Read a bool-typed operator (`is_null` / `is_not_null`) from the
payload. -/
def optBool (p : Payload) (k : String) : Option Bool :=
  match lookupKey p k with
  | some (.atom (.sBool b)) => some b
  | _ => none

/-- Read a two-element range (`between`) from the payload. -/
def optPair (p : Payload) (k : String) : Option (PyScalar × PyScalar) :=
  match lookupKey p k with
  | some (.vList [a, b]) => some (a, b)
  | _ => none

/-- The common operator fields of a payload. -/
def payloadToCommon (p : Payload) : CommonOps :=
  ⟨optScalar p "eq", optScalar p "ne", optList p "in_", optList p "not_in",
    optBool p "is_null", optBool p "is_not_null"⟩

/-- The comparison operator fields of a payload. -/
def payloadToComparison (p : Payload) : ComparisonOps :=
  ⟨optScalar p "gt", optScalar p "gte", optScalar p "lt", optScalar p "lte",
    optPair p "between"⟩

/-- `StringFilter(**field_value)`. -/
def payloadToStringFilter (p : Payload) : StringFilter :=
  ⟨payloadToCommon p, optStr p "like", optStr p "ilike", optStr p "contains",
    optStr p "icontains", optStr p "starts_with", optStr p "ends_with"⟩

/-- `NumberFilter(**field_value)`. -/
def payloadToNumberFilter (p : Payload) : NumberFilter :=
  ⟨payloadToCommon p, payloadToComparison p⟩

/-- `DateTimeFilter(**field_value)` (the dataclass: no post-init runs). -/
def payloadToDateTimeFilter (p : Payload) : DateTimeFilter :=
  ⟨payloadToCommon p, payloadToComparison p, optScalar p "from_", optScalar p "to"⟩

/-- `BooleanFilter(**field_value)`. -/
def payloadToBooleanFilter (p : Payload) : BooleanFilter :=
  ⟨optScalar p "eq", optScalar p "ne", optBool p "is_null", optBool p "is_not_null"⟩

/-- `FilterApplier._apply_filter_by_type`: build the filter instance
from the payload and dispatch on the detected class.  The boolean
branch propagates the `AttributeError` raised inside
`apply_boolean_filter`. -/
def apply_filter_by_type (qb : QueryBuilder) (col : String) (kind : FilterKind)
    (p : Payload) : Except String QueryBuilder :=
  match kind with
  | .stringF => .ok (apply_string_filter qb col (payloadToStringFilter p))
  | .numberF => .ok (apply_number_filter qb col (payloadToNumberFilter p))
  | .dateTimeF => .ok (apply_datetime_filter qb col (payloadToDateTimeFilter p))
  | .booleanF => apply_boolean_filter qb col (payloadToBooleanFilter p)

/-! ## Schema application
(`BaseFilterableFields.get_active_filters` and
`FilterApplier.apply_filters_from_schema`) -/

/-- A filter schema instance: each declared field either absent
(`None`) or holding a serialized filter payload.  This is the shape
`model_dump` produces for a `BaseFilterableFields` subclass. -/
abbrev FieldsSchema := List (String × Option Payload)

/-- `BaseFilterableFields.get_active_filters`: drop `None` fields,
strip `None`-valued operators from each remaining payload, and keep
only payloads that still have at least one operator. -/
def get_active_filters (schema : FieldsSchema) : List (String × Payload) :=
  schema.filterMap (fun kv =>
    match kv.2 with
    | none => none
    | some p =>
      let cleaned := p.filter (fun op => op.2 != PyVal.atom .sNone)
      if cleaned.isEmpty then none else some (kv.1, cleaned))

/-- `FilterApplier.apply_filters_from_schema`: for each active field,
skip it when the target model has no column of that name, detect the
filter kind, skip the field when detection is undetermined, and
otherwise apply the typed filter.  `modelCols` is the set of column
names the entity type owns (`hasattr(model, field_name)`). -/
def apply_filters_from_schema (qb : QueryBuilder) (modelCols : List String)
    (fieldsDict : List (String × Payload)) : Except String QueryBuilder :=
  fieldsDict.foldlM (fun qb fv =>
    if !modelCols.contains fv.1 then .ok qb
    else
      match detect_filter_type fv.2 with
      | none => .ok qb
      | some kind => apply_filter_by_type qb fv.1 kind fv.2) qb

/-- `DPService._get_model_column`: resolve a field name to a column of
the model, raising `ValueError` when the model has no such field. -/
def get_model_column (modelCols : List String) (field_name : String) :
    Except String String :=
  if modelCols.contains field_name then .ok field_name
  else .error ("Model has no field " ++ field_name)

/-! ## Claim-side detection algorithm (C3)

`detect_filter_type_spec` is written from the wording of claim C3 / spec
§4.1 (priority list, first match wins), independently of the source's
control flow, to be compared with `detect_filter_type` by a refinement
theorem. -/

/-- Step-3/4 shape classification as the claim words it: bool →
boolean, str → string, int/float → numeric, date/datetime → temporal;
any other shape names no filter kind. -/
def shapeKindSpec : PyVal → Option FilterKind
  | .atom (.sBool _) => some .booleanF
  | .atom (.sStr _) => some .stringF
  | .atom (.sInt _) => some .numberF
  | .atom (.sFloat _) => some .numberF
  | .atom (.sDate _) => some .dateTimeF
  | .atom (.sDateTime _) => some .dateTimeF
  | _ => none

/-- Date/time-shapedness of an operator value as the claim's step 2
reads it: a scalar is date-shaped by its own shape, a range by the
shape of its first element. -/
def specDateShaped : PyVal → Bool
  | .atom s => s.isDateShaped
  | .vList (x :: _) => x.isDateShaped
  | .vList [] => false

/-- Claim C3's detection algorithm, step by step with first match
winning: (1) a string-only operator key present → string; (2) an
ordering/range key present → temporal when the first non-null
comparison value is date/time-shaped, else numeric; (3) a non-null
`eq` / `ne` value → classify by its runtime shape; (4) a non-empty
`in_` / `not_in` sequence → classify by its first element's shape;
(5) otherwise undetermined. -/
def detect_filter_type_spec (p : Payload) : Option FilterKind :=
  if STRING_OPS.any (hasKey p) then some .stringF
  else if COMPARISON_OPS.any (hasKey p) then
    some (match firstNonNullOf p COMPARISON_OPS with
      | some v => if specDateShaped v then .dateTimeF else .numberF
      | none => .numberF)
  else
    match firstNonNullOf p ["eq", "ne"] with
    | some v => shapeKindSpec v
    | none =>
      match firstSeqHead p ["in_", "not_in"] with
      | some x => shapeKindSpec (.atom x)
      | none => none

/-- Well-formedness of a generic payload under the typed dataclass dump
grammar: the sequence operators `in_` / `not_in` / `between` carry a
sequence or null (any other value makes the source raise `TypeError`
inside `len` or diverge from the `isinstance` list check), and the
scalar comparison operators `gt` / `gte` / `lt` / `lte` carry scalars. -/
def payloadWF (p : Payload) : Bool :=
  p.all (fun kv =>
    if kv.1 ∈ ["in_", "not_in", "between"] then
      match kv.2 with
      | .atom .sNone => true
      | .vList _ => true
      | _ => false
    else if kv.1 ∈ ["gt", "gte", "lt", "lte"] then
      match kv.2 with
      | .atom _ => true
      | _ => false
    else true)

/-! ## Service layer
(`src/dplex/services/dp_service.py`; `base_service.py` inlines the very
same `model_dump` calls in its `update_by_id` /
`update_by_id_with_fields` / `delete_by_ids` / `paginate`). -/

/-- One field of a pydantic update schema: not provided at all, provided
as an explicit `None` (the null marker), or provided with a value.
Every field of the source's update schemas defaults to `None`. -/
inductive FieldState where
  | unset : FieldState
  | setNone : FieldState
  | setVal : PyScalar → FieldState
deriving DecidableEq, Repr

/-- An update payload: the schema's fields in declaration order, each
with its three-valued state. -/
abbrev UpdatePayload := List (String × FieldState)

/-- Pydantic `model_dump(exclude_unset=…, exclude_none=…)` for a schema
whose fields all default to `None`: `exclude_unset` drops fields never
assigned, `exclude_none` drops fields whose dumped value is `None`
(which covers unset fields, whose default dumps as `None`, and fields
explicitly set to `None`). -/
def model_dump (p : UpdatePayload) (exclude_unset exclude_none : Bool) : Row :=
  p.filterMap (fun kv =>
    match kv.2, exclude_unset, exclude_none with
    | .unset, true, _ => none
    | .unset, false, true => none
    | .unset, false, false => some (kv.1, none)
    | .setNone, _, true => none
    | .setNone, _, false => some (kv.1, none)
    | .setVal v, _, _ => some (kv.1, some v))

/-- `DPService._make_update_dict`: with an explicit field list, dump
everything and keep exactly the listed fields that exist on the schema;
otherwise dump set fields, dropping the `None`-valued ones unless
`include_none` is true. -/
def make_update_dict (update_data : UpdatePayload) (include_none : Bool)
    (fields_to_update : Option (List String)) : Row :=
  match fields_to_update with
  | some fields =>
    let full_dump := model_dump update_data false false
    fields.filterMap (fun f => (lookupKey full_dump f).map (fun v => (f, v)))
  | none =>
    match include_none with
    | true => model_dump update_data true false
    | false => model_dump update_data true true

/-- `DPService.update_by_id`: check existence, build the flat update
map with `include_none` (default `false` at every call site that omits
it), apply it through the repository, and re-read the entity. -/
def service_update_by_id (store : Store) (entity_id : Nat)
    (update_data : UpdatePayload) (include_none : Bool) : Store × Option Entity :=
  match repo_find_by_id store entity_id with
  | none => (store, none)
  | some _ =>
    let update_dict := make_update_dict update_data include_none none
    let store1 := repo_update_by_id store entity_id update_dict
    (store1, repo_find_by_id store1 entity_id)

/-- `DPService.update_by_id_with_fields`: check existence, build the
flat update map from the explicit field list (the payload's own
set/unset distinction plays no part), apply, and re-read. -/
def service_update_by_id_with_fields (store : Store) (entity_id : Nat)
    (update_data : UpdatePayload) (fields_to_update : List String) :
    Store × Option Entity :=
  match repo_find_by_id store entity_id with
  | none => (store, none)
  | some _ =>
    let update_dict := make_update_dict update_data false (some fields_to_update)
    let store1 := repo_update_by_id store entity_id update_dict
    (store1, repo_find_by_id store1 entity_id)

/-- `DPService.delete_by_ids`: count the entities that currently exist
among the requested ids, delete only when at least one exists, and
return that count. -/
def service_delete_by_ids (store : Store) (entity_ids : List Nat) : Store × Nat :=
  let existing_models := repo_find_by_ids store entity_ids
  let existing_count := existing_models.length
  let store1 := if 0 < existing_count then repo_delete_by_ids store entity_ids else store
  (store1, existing_count)

/-- A filter schema handed to the service: the predicates its
(abstract, subclass-supplied) `_apply_filter_to_query` hook contributes,
plus the `limit` / `offset` control attributes of `DPFilters`.  The
schema used here carries no `sort` attribute, so
`_get_sort_from_filter` contributes nothing. -/
structure FilterSchema where
  conds : List Cond
  limit : Option Int
  offset : Option Int
deriving DecidableEq, Repr

/-- The `_apply_filter_to_query` hook: contribute the schema's
field predicates to the builder (every concrete implementation routes
each active field through the applier, which appends predicates). -/
def apply_filter_to_query (qb : QueryBuilder) (fs : FilterSchema) : QueryBuilder :=
  { qb with filters := qb.filters ++ fs.conds }

/-- `DPService._apply_base_filters`: custom filters, then sort (absent
here), then `limit` and `offset` when the schema carries them. -/
def apply_base_filters (qb : QueryBuilder) (fs : FilterSchema) :
    Except String QueryBuilder := do
  let qb := apply_filter_to_query qb fs
  let qb ← match fs.limit with
    | some l => qb.limit l
    | none => .ok qb
  match fs.offset with
  | some o => qb.offset o
  | none => .ok qb

/-- `DPService.get_all`: fresh builder, base filters, execute. -/
def service_get_all (store : Store) (fs : FilterSchema) : Except String (List Entity) := do
  let qb ← apply_base_filters QueryBuilder.empty fs
  .ok (execute_typed_query store qb)

/-- `DPService.count`: fresh builder, only the custom filters, then the
count terminal (which ignores limit/offset/ordering). -/
def service_count (store : Store) (fs : FilterSchema) : Nat :=
  execute_typed_count store (apply_filter_to_query QueryBuilder.empty fs)

/-- `DPService.paginate`: reject `page < 1` and `per_page < 1` before
any query, count with the caller's schema, then run `get_all` on a copy
of the schema whose `limit` is `per_page` and whose `offset` is
`(page - 1) * per_page`. -/
def service_paginate (store : Store) (page per_page : Int) (fs : FilterSchema) :
    Except String (List Entity × Nat) := do
  if page < 1 then .error "Page must be at least 1"
  else if per_page < 1 then .error "Per page must be at least 1"
  else
    let total_count := service_count store fs
    let paginated_filter :=
      { fs with limit := some per_page, offset := some ((page - 1) * per_page) }
    let items ← service_get_all store paginated_filter
    .ok (items, total_count)

/-! ## Helper lemmas -/

theorem lookupKey_eq_none_of_not_mem {α : Type} {l : List (String × α)} {k : String}
    (h : k ∉ l.map Prod.fst) : lookupKey l k = none := by
  induction l with
  | nil => rfl
  | cons hd tl ih =>
    simp only [List.map_cons, List.mem_cons, not_or] at h
    simp only [lookupKey]
    rw [if_neg (fun he => h.1 he.symm)]
    exact ih h.2

theorem mem_of_lookupKey_eq_some {α : Type} {l : List (String × α)} {k : String} {v : α}
    (h : lookupKey l k = some v) : (k, v) ∈ l := by
  induction l with
  | nil => simp [lookupKey] at h
  | cons hd tl ih =>
    obtain ⟨k1, v1⟩ := hd
    simp only [lookupKey] at h
    by_cases he : k1 = k
    · subst he
      rw [if_pos rfl] at h
      cases h
      exact List.mem_cons_self _ _
    · rw [if_neg he] at h
      exact List.mem_cons_of_mem _ (ih h)

theorem lookupKey_setField_self (fs : Row) (k : String) (v : Option PyScalar) :
    lookupKey (setField fs k v) k = some v := by
  induction fs with
  | nil => simp [setField, lookupKey]
  | cons hd tl ih =>
    obtain ⟨k1, v1⟩ := hd
    simp only [setField]
    by_cases he : k1 = k
    · rw [if_pos he]
      simp [lookupKey, he]
    · rw [if_neg he]
      simp only [lookupKey]
      rw [if_neg he]
      exact ih

theorem lookupKey_setField_other (fs : Row) {k k1 : String} (v : Option PyScalar)
    (h : k1 ≠ k) : lookupKey (setField fs k v) k1 = lookupKey fs k1 := by
  induction fs with
  | nil =>
    simp only [setField, lookupKey]
    rw [if_neg (fun he : k = k1 => h he.symm)]
  | cons hd tl ih =>
    obtain ⟨ka, va⟩ := hd
    simp only [setField]
    by_cases he : ka = k
    · subst he
      simp only [if_pos rfl, lookupKey]
      have hne : ¬ ka = k1 := fun hx => h hx.symm
      rw [if_neg hne, if_neg hne]
    · simp only [if_neg he, lookupKey]
      by_cases hx : ka = k1
      · rw [if_pos hx, if_pos hx]
      · rw [if_neg hx, if_neg hx]
        exact ih

theorem lookupKey_applyValues (fs : Row) (m : Row) (k : String)
    (hm : (m.map Prod.fst).Nodup) :
    lookupKey (applyValues fs m) k =
      ((lookupKey m k).elim (lookupKey fs k) some) := by
  induction m generalizing fs with
  | nil => simp [applyValues, lookupKey, Option.elim]
  | cons hd tl ih =>
    simp only [List.map_cons, List.nodup_cons] at hm
    have step : applyValues fs (hd :: tl) = applyValues (setField fs hd.1 hd.2) tl := by
      simp [applyValues]
    rw [step, ih _ hm.2]
    simp only [lookupKey]
    by_cases he : hd.1 = k
    · rw [if_pos he]
      have htl : lookupKey tl k = none := by
        apply lookupKey_eq_none_of_not_mem
        rw [← he]
        exact hm.1
      rw [htl]
      simp only [Option.elim]
      rw [← he]
      exact lookupKey_setField_self fs hd.1 hd.2
    · rw [if_neg he]
      rw [lookupKey_setField_other fs hd.2 (fun hx => he hx.symm)]

theorem lookupKey_map_value {α β : Type} (l : List (String × α)) (g : α → β) (k : String) :
    lookupKey (l.map (fun kv => (kv.1, g kv.2))) k = (lookupKey l k).map g := by
  induction l with
  | nil => rfl
  | cons hd tl ih =>
    simp only [List.map_cons, lookupKey]
    by_cases he : hd.1 = k
    · rw [if_pos he, if_pos he]
      rfl
    · rw [if_neg he, if_neg he]
      exact ih

theorem keys_sublist_of_filterMap_fst {α β : Type} (l : List (String × α))
    (f : String × α → Option (String × β)) (hf : ∀ kv w, f kv = some w → w.1 = kv.1) :
    List.Sublist ((l.filterMap f).map Prod.fst) (l.map Prod.fst) := by
  induction l with
  | nil => simp
  | cons hd tl ih =>
    simp only [List.filterMap_cons]
    cases hw : f hd with
    | none =>
      simp only [List.map_cons]
      exact ih.cons hd.1
    | some w =>
      simp only [List.map_cons]
      rw [hf hd w hw]
      exact ih.cons₂ hd.1

/-- The dumped cell of a field state under a full (flag-free)
`model_dump`: unset and explicitly-null fields dump as `None`, valued
fields as their value. -/
def stateCell : FieldState → Option PyScalar
  | .unset => none
  | .setNone => none
  | .setVal v => some v

theorem model_dump_full (ud : UpdatePayload) :
    model_dump ud false false = ud.map (fun kv => (kv.1, stateCell kv.2)) := by
  induction ud with
  | nil => rfl
  | cons hd tl ih =>
    obtain ⟨k1, st⟩ := hd
    show List.filterMap _ ((k1, st) :: tl) = _
    rw [List.filterMap_cons, List.map_cons]
    cases st with
    | unset => exact congrArg _ ih
    | setNone => exact congrArg _ ih
    | setVal v => exact congrArg _ ih

/-- The update map built by `_make_update_dict` with the default flags
keeps exactly the fields explicitly set to a non-null value. -/
def defaultDumpEntry (kv : String × FieldState) : Option (String × Option PyScalar) :=
  match kv.2 with
  | .setVal v => some (kv.1, some v)
  | _ => none

theorem make_update_dict_default (ud : UpdatePayload) :
    make_update_dict ud false none = ud.filterMap defaultDumpEntry := by
  show model_dump ud true true = _
  induction ud with
  | nil => rfl
  | cons hd tl ih =>
    obtain ⟨k1, st⟩ := hd
    show List.filterMap _ ((k1, st) :: tl) = _
    rw [List.filterMap_cons, List.filterMap_cons]
    cases st with
    | unset => exact ih
    | setNone => exact ih
    | setVal v => exact congrArg _ ih

theorem defaultDumpEntry_key (kv : String × FieldState) (w : String × Option PyScalar)
    (hw : defaultDumpEntry kv = some w) : w.1 = kv.1 := by
  obtain ⟨k1, st⟩ := kv
  cases st with
  | unset => simp [defaultDumpEntry] at hw
  | setNone => simp [defaultDumpEntry] at hw
  | setVal v =>
    simp only [defaultDumpEntry] at hw
    cases hw
    rfl

theorem lookupKey_make_update_dict_default (ud : UpdatePayload) (k : String)
    (hud : (ud.map Prod.fst).Nodup) :
    lookupKey (make_update_dict ud false none) k =
      (match lookupKey ud k with
       | some (.setVal v) => some (some v)
       | _ => none) := by
  rw [make_update_dict_default]
  induction ud with
  | nil => rfl
  | cons hd tl ih =>
    obtain ⟨k1, st⟩ := hd
    simp only [List.map_cons, List.nodup_cons] at hud
    rw [List.filterMap_cons]
    by_cases he : k1 = k
    · subst he
      have htl2 : lookupKey (tl.filterMap defaultDumpEntry) k1 = none := by
        apply lookupKey_eq_none_of_not_mem
        intro hmem
        exact hud.1 ((keys_sublist_of_filterMap_fst tl defaultDumpEntry
          defaultDumpEntry_key).mem hmem)
      cases st with
      | setVal v => simp [lookupKey, defaultDumpEntry]
      | unset => simp [lookupKey, defaultDumpEntry, htl2]
      | setNone => simp [lookupKey, defaultDumpEntry, htl2]
    · have ihx := ih hud.2
      cases st with
      | setVal v =>
        simp only [defaultDumpEntry, lookupKey]
        rw [if_neg he, if_neg he]
        exact ihx
      | unset =>
        simp only [defaultDumpEntry, lookupKey]
        rw [if_neg he]
        exact ihx
      | setNone =>
        simp only [defaultDumpEntry, lookupKey]
        rw [if_neg he]
        exact ihx

theorem nodup_keys_make_update_dict_default (ud : UpdatePayload)
    (hud : (ud.map Prod.fst).Nodup) :
    ((make_update_dict ud false none).map Prod.fst).Nodup := by
  rw [make_update_dict_default]
  exact (keys_sublist_of_filterMap_fst ud defaultDumpEntry defaultDumpEntry_key).nodup hud

theorem lookupKey_model_dump_full (ud : UpdatePayload) (k : String) :
    lookupKey (model_dump ud false false) k = (lookupKey ud k).map stateCell := by
  rw [model_dump_full]
  exact lookupKey_map_value ud stateCell k

theorem keys_sublist_of_filterMap_key {α : Type} (l : List String) (g : String → Option α) :
    List.Sublist ((l.filterMap (fun f => (g f).map (fun v => (f, v)))).map Prod.fst) l := by
  induction l with
  | nil => simp
  | cons hd tl ih =>
    rw [List.filterMap_cons]
    cases hg : g hd with
    | none => exact ih.cons hd
    | some v => exact ih.cons₂ hd

theorem lookupKey_make_update_dict_fields (ud : UpdatePayload) (fields : List String)
    (k : String) (hf : fields.Nodup) :
    lookupKey (make_update_dict ud false (some fields)) k =
      if k ∈ fields then (lookupKey ud k).map stateCell else none := by
  show lookupKey (fields.filterMap
    (fun f => (lookupKey (model_dump ud false false) f).map (fun v => (f, v)))) k = _
  induction fields with
  | nil => simp [lookupKey]
  | cons hd tl ih =>
    rw [List.nodup_cons] at hf
    have ihx := ih hf.2
    rw [List.filterMap_cons]
    by_cases he : hd = k
    · subst he
      cases hfull : lookupKey (model_dump ud false false) hd with
      | some v =>
        have hv : (lookupKey ud hd).map stateCell = some v := by
          rw [← lookupKey_model_dump_full ud hd, hfull]
        show lookupKey ((hd, v) :: _) hd = _
        simp [lookupKey, hv]
      | none =>
        have hnone : lookupKey (tl.filterMap
            (fun f => (lookupKey (model_dump ud false false) f).map (fun v => (f, v)))) hd
            = none := by
          apply lookupKey_eq_none_of_not_mem
          intro hmem
          exact hf.1 ((keys_sublist_of_filterMap_key tl _).mem hmem)
        have hv : (lookupKey ud hd).map stateCell = none := by
          rw [← lookupKey_model_dump_full ud hd, hfull]
        show lookupKey (tl.filterMap _) hd = _
        simp [hnone, hv]
    · have hmem : (k ∈ hd :: tl) ↔ (k ∈ tl) := by
        rw [List.mem_cons]
        exact or_iff_right (fun hx => he hx.symm)
      cases hfull : lookupKey (model_dump ud false false) hd with
      | some v =>
        show lookupKey ((hd, v) :: _) k = _
        simp only [lookupKey]
        rw [if_neg he, ihx]
        exact (if_congr hmem.symm rfl rfl)
      | none =>
        show lookupKey (tl.filterMap _) k = _
        rw [ihx]
        exact (if_congr hmem.symm rfl rfl)

theorem nodup_keys_make_update_dict_fields (ud : UpdatePayload) (fields : List String)
    (hf : fields.Nodup) :
    ((make_update_dict ud false (some fields)).map Prod.fst).Nodup :=
  (keys_sublist_of_filterMap_key fields _).nodup hf

theorem repo_find_by_id_update (store : Store) (entity_id : Nat) (m : Row) :
    repo_find_by_id (repo_update_by_id store entity_id m) entity_id =
      (repo_find_by_id store entity_id).map
        (fun e => { e with fields := applyValues e.fields m }) := by
  induction store with
  | nil => rfl
  | cons e tl ih =>
    simp only [repo_update_by_id, repo_find_by_id, List.map_cons, List.find?] at ih ⊢
    by_cases he : e.id == entity_id
    · rw [if_pos he]
      simp only [he]
      rfl
    · rw [if_neg he]
      simp only [Bool.not_eq_true] at he
      simp only [he]
      exact ih

theorem count_zero_of_false_cond (store : Store) (b : QueryBuilder) (c : Cond)
    (hc : c ∈ b.filters) (hf : ∀ r, evalCond c r = false) :
    execute_typed_count store b = 0 := by
  simp only [execute_typed_count, List.length_eq_zero]
  rw [List.filter_eq_nil_iff]
  intro e _
  simp only [rowMatches, List.all_eq_true, not_forall]
  refine ⟨c, hc, ?_⟩
  simp [hf e.fields]

theorem evalCond_in_empty (col : String) (r : Row) :
    evalCond (.inC col []) r = false := by
  simp only [evalCond]
  cases cellOf r col <;> simp

theorem count_empty_builder (store : Store) :
    execute_typed_count store QueryBuilder.empty = store.length := by
  simp [execute_typed_count, QueryBuilder.empty, rowMatches]

theorem query_nil_of_false_cond (store : Store) (b : QueryBuilder) (c : Cond)
    (hc : c ∈ b.filters) (hf : ∀ r, evalCond c r = false) :
    execute_typed_query store b = [] := by
  have hfil : store.filter (fun e => rowMatches b.filters e.fields) = [] := by
    rw [List.filter_eq_nil_iff]
    intro e _
    simp only [rowMatches, List.all_eq_true, not_forall]
    refine ⟨c, hc, ?_⟩
    simp [hf e.fields]
  simp only [execute_typed_query, hfil, sortBy]
  cases b.offset_value <;> cases b.limit_value <;> simp [sortBy]

theorem where_in_filters (qb : QueryBuilder) (col : String) (vs : List PyScalar) :
    (qb.where_in col vs).filters = qb.filters ++ [Cond.inC col vs] := by
  by_cases h : vs.isEmpty
  · rw [List.isEmpty_iff] at h
    subst h
    simp [QueryBuilder.where_in, QueryBuilder.where]
  · simp [QueryBuilder.where_in, QueryBuilder.where, h]

/-- The predicates one `_apply_common_ops` call contributes for a given
column, field by field (used to characterize `applyCommonOps`). -/
def condsOfCommon (col : String) (f : CommonOps) : List Cond :=
  (match f.eq with | some v => [Cond.eqC col v] | none => []) ++
  (match f.ne with | some v => [Cond.neC col v] | none => []) ++
  (match f.in_ with | some vs => [Cond.inC col vs] | none => []) ++
  (match f.not_in with
   | some vs => if vs.isEmpty then [] else [Cond.notInC col vs]
   | none => []) ++
  (match f.is_null with | some b => if b then [Cond.isNullC col] else [] | none => []) ++
  (match f.is_not_null with | some b => if b then [Cond.isNotNullC col] else [] | none => [])

theorem filters_opt_eq (q : QueryBuilder) (col : String) (o : Option PyScalar) :
    (match o with | some v => q.where_eq col v | none => q).filters
      = q.filters ++ (match o with | some v => [Cond.eqC col v] | none => []) := by
  cases o <;> simp [QueryBuilder.where_eq, QueryBuilder.where]

theorem filters_opt_ne (q : QueryBuilder) (col : String) (o : Option PyScalar) :
    (match o with | some v => q.where_ne col v | none => q).filters
      = q.filters ++ (match o with | some v => [Cond.neC col v] | none => []) := by
  cases o <;> simp [QueryBuilder.where_ne, QueryBuilder.where]

theorem filters_opt_in (q : QueryBuilder) (col : String) (o : Option (List PyScalar)) :
    (match o with | some vs => q.where_in col vs | none => q).filters
      = q.filters ++ (match o with | some vs => [Cond.inC col vs] | none => []) := by
  cases o with
  | none => simp
  | some vs => rw [where_in_filters]

theorem filters_opt_not_in (q : QueryBuilder) (col : String) (o : Option (List PyScalar)) :
    (match o with | some vs => q.where_not_in col vs | none => q).filters
      = q.filters ++ (match o with
        | some vs => if vs.isEmpty then [] else [Cond.notInC col vs]
        | none => []) := by
  cases o with
  | none => simp
  | some vs =>
    by_cases h : vs.isEmpty
    · simp [QueryBuilder.where_not_in, h]
    · simp [QueryBuilder.where_not_in, QueryBuilder.where, h]

theorem filters_opt_is_null (q : QueryBuilder) (col : String) (o : Option Bool) :
    (match o with | some b => if b then q.where_is_null col else q | none => q).filters
      = q.filters ++ (match o with
        | some b => if b then [Cond.isNullC col] else []
        | none => []) := by
  cases o with
  | none => simp
  | some b => cases b <;> simp [QueryBuilder.where_is_null, QueryBuilder.where]

theorem filters_opt_is_not_null (q : QueryBuilder) (col : String) (o : Option Bool) :
    (match o with | some b => if b then q.where_is_not_null col else q | none => q).filters
      = q.filters ++ (match o with
        | some b => if b then [Cond.isNotNullC col] else []
        | none => []) := by
  cases o with
  | none => simp
  | some b => cases b <;> simp [QueryBuilder.where_is_not_null, QueryBuilder.where]

theorem filters_applyCommonOps (qb : QueryBuilder) (col : String) (f : CommonOps) :
    (applyCommonOps qb col f).filters = qb.filters ++ condsOfCommon col f := by
  unfold applyCommonOps condsOfCommon
  rw [filters_opt_is_not_null, filters_opt_is_null, filters_opt_not_in, filters_opt_in,
    filters_opt_ne, filters_opt_eq]
  simp [List.append_assoc]

/-! ## Claim theorems -/

/-- **C4.** The claim says every temporal filter variant the library
exposes treats a set `from_` (with `gte` unset) exactly as `gte`.  The
code contradicts its own documentation: the `BaseDateTimeFilter`
dataclass of `src/dplex/services/filters.py` documents `from_` / `to`
as aliases equivalent to `gte` / `lte`, yet it has no post-init hook
and `FilterApplier._apply_comparison_ops` never reads those fields, so
applying a dataclass temporal filter that carries only `from_` emits
**no** predicate at all; the alias behaviour exists only in the
pydantic `DateTimeFilter` of `base_service.py`, whose
`model_post_init` (second conjunct) produces the `gte` predicate the
claim expects. -/
theorem C4_from_alias_ignored_on_dataclass_path :
    apply_datetime_filter QueryBuilder.empty "created_at"
        { DateTimeFilter.none_ with from_ := some (.sDate 738887) } = QueryBuilder.empty
    ∧ apply_datetime_filter QueryBuilder.empty "created_at"
        (DateTimeFilter.model_post_init
          { DateTimeFilter.none_ with from_ := some (.sDate 738887) })
      = QueryBuilder.empty.where_gte "created_at" (.sDate 738887)
    ∧ apply_datetime_filter QueryBuilder.empty "created_at"
        { DateTimeFilter.none_ with gte := some (.sDate 738887) }
      = QueryBuilder.empty.where_gte "created_at" (.sDate 738887) := by
  refine ⟨by decide, by decide, by decide⟩

/-- **C6 (counterexample).** An active, detectable filter on a field
(`age`) that has no column on the model (which only owns `name`) is
silently skipped: schema application returns the builder unchanged and
raises nothing, where the claim demands an immediately surfaced
precondition error. -/
theorem C6_counterexample :
    apply_filters_from_schema QueryBuilder.empty ["name"]
      [("age", [("eq", PyVal.atom (.sInt 3))])] = .ok QueryBuilder.empty := rfl

/-- **C6 (amended).** When a whole filter schema is applied, every
active field whose name has no corresponding column on the target
entity is silently skipped — the builder is returned unchanged and no
error is raised; a missing-field precondition error is raised only by
explicit column resolution (`DPService._get_model_column`, used for
sort fields), not by `apply_filters_from_schema`. -/
theorem C6_unknown_fields_skipped (qb : QueryBuilder) (cols : List String)
    (fieldsDict : List (String × Payload))
    (h : ∀ fv ∈ fieldsDict, cols.contains fv.1 = false) :
    apply_filters_from_schema qb cols fieldsDict = .ok qb
    ∧ (∀ name, cols.contains name = false →
        get_model_column cols name = .error ("Model has no field " ++ name)) := by
  constructor
  · induction fieldsDict generalizing qb with
    | nil => rfl
    | cons hd tl ih =>
      have hhd := h hd (List.mem_cons_self hd tl)
      show List.foldlM _ _ _ = _
      rw [List.foldlM_cons]
      rw [hhd]
      show apply_filters_from_schema qb cols tl = _
      exact ih qb (fun fv hfv => h fv (List.mem_cons_of_mem hd hfv))
  · intro name hn
    unfold get_model_column
    rw [hn]
    rfl

/-- Closed instance discharging the hypotheses of
`C6_unknown_fields_skipped` on a concrete schema and model. -/
theorem C6_unknown_fields_skipped_witness :
    apply_filters_from_schema QueryBuilder.empty ["name", "age"]
      [("color", [("eq", PyVal.atom (.sInt 3))]), ("size", [("gt", PyVal.atom (.sInt 1))])]
      = .ok QueryBuilder.empty
    ∧ get_model_column ["name", "age"] "color" = .error "Model has no field color" :=
  ⟨(C6_unknown_fields_skipped QueryBuilder.empty ["name", "age"] _ (by decide)).1,
   (C6_unknown_fields_skipped QueryBuilder.empty ["name", "age"] []
      (by intro fv hfv; cases hfv)).2 "color" (by decide)⟩

/-- **C8.** `delete_by_ids` returns the number of entities that existed
prior to the deletion (those whose id occurs in the requested list),
ids matching nothing are a no-op rather than an error (third
conjunct), and afterwards none of the requested ids still exists. -/
theorem C8_delete_by_ids_returns_preexisting_count (store : Store) (ids : List Nat) :
    (service_delete_by_ids store ids).2 =
      (store.filter (fun e => ids.contains e.id)).length
    ∧ (∀ i, i ∈ ids → repo_exists_by_id (service_delete_by_ids store ids).1 i = false)
    ∧ ((∀ e ∈ store, ids.contains e.id = false) →
        (service_delete_by_ids store ids).1 = store) := by
  refine ⟨rfl, ?_, ?_⟩
  · intro i hi
    by_cases h0 : 0 < (repo_find_by_ids store ids).length
    · have hstep : (service_delete_by_ids store ids).1 = repo_delete_by_ids store ids := by
        simp [service_delete_by_ids, h0]
      rw [hstep]
      have hnil : (repo_delete_by_ids store ids).filter (fun e => e.id == i) = [] := by
        rw [List.filter_eq_nil_iff]
        intro e he
        rw [repo_delete_by_ids, List.mem_filter] at he
        have hnc : ¬ ids.contains e.id = true := by
          simpa using he.2
        intro hei
        rw [beq_iff_eq] at hei
        exact hnc (List.elem_iff.mpr (hei ▸ hi))
      simp [repo_exists_by_id, hnil]
    · have hstep : (service_delete_by_ids store ids).1 = store := by
        simp [service_delete_by_ids, h0]
      rw [hstep]
      have hall : ∀ e ∈ store, ¬ ids.contains e.id = true := by
        have hlen : (repo_find_by_ids store ids).length = 0 := Nat.eq_zero_of_not_pos h0
        rw [List.length_eq_zero] at hlen
        rw [repo_find_by_ids, List.filter_eq_nil_iff] at hlen
        exact hlen
      have hnil : store.filter (fun e => e.id == i) = [] := by
        rw [List.filter_eq_nil_iff]
        intro e he hei
        rw [beq_iff_eq] at hei
        exact hall e he (List.elem_iff.mpr (hei ▸ hi))
      simp [repo_exists_by_id, hnil]
  · intro h
    have hlen : (repo_find_by_ids store ids).length = 0 := by
      rw [repo_find_by_ids]
      have : store.filter (fun e => ids.contains e.id) = [] := by
        rw [List.filter_eq_nil_iff]
        intro e he hc
        rw [h e he] at hc
        exact Bool.false_ne_true hc
      rw [this]
      rfl
    simp [service_delete_by_ids, hlen]

/-- Closed instance discharging the hypotheses of
`C8_delete_by_ids_returns_preexisting_count` on a two-entity store
where one requested id exists and the other does not: the count is 1
and the existing id is gone afterwards. -/
theorem C8_delete_by_ids_witness :
    (service_delete_by_ids
      [⟨0, [("a", some (.sInt 1))]⟩, ⟨1, [("a", some (.sInt 2))]⟩] [0, 5]).2 = 1
    ∧ repo_exists_by_id
        (service_delete_by_ids
          [⟨0, [("a", some (.sInt 1))]⟩, ⟨1, [("a", some (.sInt 2))]⟩] [0, 5]).1 0 = false := by
  have h := C8_delete_by_ids_returns_preexisting_count
    [⟨0, [("a", some (.sInt 1))]⟩, ⟨1, [("a", some (.sInt 2))]⟩] [0, 5]
  refine ⟨?_, h.2.1 0 (by decide)⟩
  rw [h.1]
  decide

/-- **C9.** A schema in which every filterable field is either absent
or an all-`None` filter yields no active filters, schema application
returns the builder with its predicate list untouched, and a count on
the untouched (fresh) builder equals the store's unfiltered size. -/
theorem C9_all_none_schema_emits_nothing (store : Store) (qb : QueryBuilder)
    (cols : List String) (schema : FieldsSchema)
    (h : ∀ kv ∈ schema, kv.2 = none ∨ ∀ op ∈ kv.2.getD [], op.2 = PyVal.atom .sNone) :
    get_active_filters schema = []
    ∧ apply_filters_from_schema qb cols (get_active_filters schema) = .ok qb
    ∧ execute_typed_count store QueryBuilder.empty = store.length := by
  have hact : get_active_filters schema = [] := by
    induction schema with
    | nil => rfl
    | cons hd tl ih =>
      have hhd := h hd (List.mem_cons_self hd tl)
      have htl := ih (fun kv hkv => h kv (List.mem_cons_of_mem hd hkv))
      show List.filterMap _ (hd :: tl) = []
      rw [List.filterMap_cons]
      rcases hhd with hnone | hops
      · rw [hnone]
        exact htl
      · cases hp : hd.2 with
        | none => exact htl
        | some p =>
          have hclean : p.filter (fun op => op.2 != PyVal.atom .sNone) = [] := by
            rw [List.filter_eq_nil_iff]
            intro op hop
            have hx := hops op (by rw [hp]; exact hop)
            simp [hx]
          simp only [hclean]
          exact htl
  refine ⟨hact, ?_, count_empty_builder store⟩
  rw [hact]
  rfl

/-- Closed instance discharging the hypotheses of
`C9_all_none_schema_emits_nothing` on a two-field schema (one field
absent, one all-`None`) over a two-row store. -/
theorem C9_all_none_schema_witness :
    get_active_filters [("name", none), ("age", some [("eq", PyVal.atom .sNone),
      ("gt", PyVal.atom .sNone)])] = []
    ∧ execute_typed_count [⟨0, []⟩, ⟨1, []⟩] QueryBuilder.empty = 2 := by
  have h := C9_all_none_schema_emits_nothing [⟨0, []⟩, ⟨1, []⟩] QueryBuilder.empty []
    [("name", none), ("age", some [("eq", PyVal.atom .sNone), ("gt", PyVal.atom .sNone)])]
    (by decide)
  exact ⟨h.1, h.2.2⟩

/-- **C2 (counterexample).** On the generic-payload application path an
empty `in_` does **not** produce an always-false predicate: detection
cannot classify `{"in_": []}` (no element to inspect), so
`apply_filters_from_schema` skips the field entirely and the builder
comes back unchanged; a count on that unchanged builder over a
one-row store is `1`, not the `0` the claim requires of every
application path. -/
theorem C2_counterexample :
    apply_filters_from_schema QueryBuilder.empty ["age"]
      [("age", [("in_", PyVal.vList [])])] = .ok QueryBuilder.empty
    ∧ detect_filter_type [("in_", PyVal.vList [])] = none
    ∧ execute_typed_count [⟨0, [("age", some (.sInt 3))]⟩] QueryBuilder.empty = 1 :=
  ⟨rfl, by decide, by decide⟩

/-- **C2 (amended).** The empty-sequence asymmetry holds on the typed
application paths: `where_in` with an empty list emits a predicate
matching zero rows (count 0, result set empty, whatever the store and
whatever predicates the builder already carries), `where_not_in` with
an empty list emits no predicate at all (the builder is returned
unchanged), and every typed filter routed through `_apply_common_ops`
with `in_ = []` yields a query matching zero rows.  On the
generic-payload path, however, a field whose payload is exactly
`{"in_": []}` is undetermined for type detection and is skipped —
no predicate is emitted there. -/
theorem C2_empty_in_asymmetry :
    (∀ (qb : QueryBuilder) (col : String) (store : Store),
      execute_typed_count store (qb.where_in col []) = 0
      ∧ execute_typed_query store (qb.where_in col []) = [])
    ∧ (∀ (qb : QueryBuilder) (col : String), qb.where_not_in col [] = qb)
    ∧ (∀ (qb : QueryBuilder) (col : String) (store : Store) (f : CommonOps),
        f.in_ = some [] → execute_typed_count store (applyCommonOps qb col f) = 0)
    ∧ (∀ (qb : QueryBuilder) (cols : List String) (name : String),
        apply_filters_from_schema qb cols [(name, [("in_", PyVal.vList [])])] = .ok qb) := by
  have hmem_in : ∀ (qb : QueryBuilder) (col : String),
      Cond.inC col [] ∈ (qb.where_in col []).filters := by
    intro qb col
    rw [where_in_filters]
    simp
  refine ⟨?_, ?_, ?_, ?_⟩
  · intro qb col store
    exact ⟨count_zero_of_false_cond store _ _ (hmem_in qb col) (evalCond_in_empty col),
      query_nil_of_false_cond store _ _ (hmem_in qb col) (evalCond_in_empty col)⟩
  · intro qb col
    rfl
  · intro qb col store f hf
    have hmem : Cond.inC col [] ∈ (applyCommonOps qb col f).filters := by
      rw [filters_applyCommonOps]
      simp [condsOfCommon, hf]
    exact count_zero_of_false_cond store _ _ hmem (evalCond_in_empty col)
  · intro qb cols name
    show List.foldlM _ _ _ = _
    rw [List.foldlM_cons]
    by_cases hc : cols.contains name
    · have hdet : detect_filter_type [("in_", PyVal.vList [])] = none := by decide
      simp only [hc, Bool.not_true, hdet]
      rfl
    · simp only [Bool.not_eq_true] at hc
      simp only [hc, Bool.not_false]
      rfl

/-- Closed instance discharging the hypothesis of
`C2_empty_in_asymmetry` (a `StringFilter` whose `in_` is the empty
list) on a one-row store: the typed path matches zero rows. -/
theorem C2_empty_in_asymmetry_witness :
    execute_typed_count [⟨0, [("age", some (.sInt 3))]⟩]
      (applyCommonOps QueryBuilder.empty "age"
        { CommonOps.none_ with in_ := some [] }) = 0 :=
  C2_empty_in_asymmetry.2.2.1 QueryBuilder.empty "age"
    [⟨0, [("age", some (.sInt 3))]⟩] { CommonOps.none_ with in_ := some [] } rfl

/-- **C1 (counterexample).** With the default include-none flag an
explicitly-nulled field is *omitted from the flat update map*, not
mapped to null: updating `{name: "X", email: NULL}` over an entity
whose `email` is `"a"` produces the map `{name: "X"}` and a read after
the update still returns `"a"` for `email` — not null as the claim
requires. -/
theorem C1_counterexample :
    make_update_dict
      [("name", FieldState.setVal (.sStr "X")), ("email", FieldState.setNone)] false none
      = [("name", some (.sStr "X"))]
    ∧ ((service_update_by_id
        [⟨0, [("name", some (.sStr "b")), ("email", some (.sStr "a"))]⟩] 0
        [("name", FieldState.setVal (.sStr "X")), ("email", FieldState.setNone)]
        false).2.bind (fun e => lookupKey e.fields "email")) = some (some (.sStr "a"))
    ∧ ((service_update_by_id
        [⟨0, [("name", some (.sStr "b")), ("email", some (.sStr "a"))]⟩] 0
        [("name", FieldState.setVal (.sStr "X")), ("email", FieldState.setNone)]
        false).2.bind (fun e => lookupKey e.fields "email")) ≠ some none := by
  refine ⟨by decide, by decide, by decide⟩

/-- **C1 (amended).** For every existing id and update payload (with
pydantic's distinct field names), `update_by_id` with the default
include-none flag builds the flat update map so that absent fields
*and* fields carrying the explicit null marker are both omitted, and
only fields carrying a non-null value are mapped, to that value;
consequently a read after the update returns the new value for each
valued field and the *prior* value both for every omitted field and
for every explicitly-nulled field (an explicit null reaches the store
only when `include_none=True` is passed, or via
`update_by_id_with_fields`). -/
theorem C1_update_by_id_default_semantics (store : Store) (entity_id : Nat) (e : Entity)
    (ud : UpdatePayload)
    (hfind : repo_find_by_id store entity_id = some e)
    (hud : (ud.map Prod.fst).Nodup) :
    (∀ k, lookupKey (make_update_dict ud false none) k =
      (match lookupKey ud k with
       | some (.setVal v) => some (some v)
       | _ => none))
    ∧ ∃ e1, (service_update_by_id store entity_id ud false).2 = some e1
        ∧ e1.id = e.id
        ∧ (∀ k v, lookupKey ud k = some (.setVal v) →
            lookupKey e1.fields k = some (some v))
        ∧ (∀ k, (lookupKey ud k = none ∨ lookupKey ud k = some .unset
              ∨ lookupKey ud k = some .setNone) →
            lookupKey e1.fields k = lookupKey e.fields k) := by
  have hchar := fun k => lookupKey_make_update_dict_default ud k hud
  have hnodup := nodup_keys_make_update_dict_default ud hud
  refine ⟨hchar, ⟨{ e with fields := applyValues e.fields (make_update_dict ud false none) },
    ?_, rfl, ?_, ?_⟩⟩
  · show (service_update_by_id store entity_id ud false).2 = _
    simp only [service_update_by_id, hfind]
    rw [repo_find_by_id_update, hfind]
    rfl
  · intro k v hk
    have hc := hchar k
    rw [hk] at hc
    rw [lookupKey_applyValues e.fields _ k hnodup, hc]
    rfl
  · intro k hk
    have hc := hchar k
    have hnone : lookupKey (make_update_dict ud false none) k = none := by
      rcases hk with h | h | h <;> rw [h] at hc <;> exact hc
    rw [lookupKey_applyValues e.fields _ k hnodup, hnone]
    rfl

/-- Closed instance discharging the hypotheses of
`C1_update_by_id_default_semantics`: a one-entity store updated with a
payload that sets `email` and leaves `name` untouched. -/
theorem C1_update_by_id_default_semantics_witness :
    ∃ e1, (service_update_by_id
        [⟨0, [("name", some (.sStr "b")), ("email", some (.sStr "a"))]⟩] 0
        [("email", FieldState.setVal (.sStr "c"))] false).2 = some e1
      ∧ lookupKey e1.fields "email" = some (some (.sStr "c"))
      ∧ lookupKey e1.fields "name" = some (some (.sStr "b")) := by
  have h := C1_update_by_id_default_semantics
    [⟨0, [("name", some (.sStr "b")), ("email", some (.sStr "a"))]⟩] 0
    ⟨0, [("name", some (.sStr "b")), ("email", some (.sStr "a"))]⟩
    [("email", FieldState.setVal (.sStr "c"))] (by decide) (by decide)
  obtain ⟨-, e1, h1, -, h3, h4⟩ := h
  refine ⟨e1, h1, h3 "email" (.sStr "c") (by decide), ?_⟩
  rw [h4 "name" (Or.inl (by decide))]
  decide

/-- **C7.** `update_by_id_with_fields` updates exactly the fields named
in the explicit list, each to whatever the payload's full dump holds
for it — `stateCell`: the value for a set field, null both for an
explicitly-nulled and for an unset field (the payload's set/unset
distinction is ignored) — while every field not named stays untouched
even when the payload carries a value for it; a name outside the
payload's field set is skipped. -/
theorem C7_update_by_id_with_fields_exact (store : Store) (entity_id : Nat) (e : Entity)
    (ud : UpdatePayload) (fields : List String)
    (hfind : repo_find_by_id store entity_id = some e)
    (hf : fields.Nodup) :
    ∃ e1, (service_update_by_id_with_fields store entity_id ud fields).2 = some e1
      ∧ e1.id = e.id
      ∧ (∀ k, k ∉ fields → lookupKey e1.fields k = lookupKey e.fields k)
      ∧ (∀ k st, k ∈ fields → lookupKey ud k = some st →
          lookupKey e1.fields k = some (stateCell st))
      ∧ (∀ k, k ∈ fields → lookupKey ud k = none →
          lookupKey e1.fields k = lookupKey e.fields k) := by
  have hchar := fun k => lookupKey_make_update_dict_fields ud fields k hf
  have hnodup := nodup_keys_make_update_dict_fields ud fields hf
  refine ⟨{ e with fields := applyValues e.fields (make_update_dict ud false (some fields)) }, ?_, rfl, ?_, ?_, ?_⟩
  · show (service_update_by_id_with_fields store entity_id ud fields).2 = _
    simp only [service_update_by_id_with_fields, hfind]
    rw [repo_find_by_id_update, hfind]
    rfl
  · intro k hk
    have hc := hchar k
    rw [if_neg hk] at hc
    rw [lookupKey_applyValues e.fields _ k hnodup, hc]
    rfl
  · intro k st hk hst
    have hc := hchar k
    rw [if_pos hk, hst] at hc
    rw [lookupKey_applyValues e.fields _ k hnodup, hc]
    rfl
  · intro k hk hst
    have hc := hchar k
    rw [if_pos hk, hst] at hc
    rw [lookupKey_applyValues e.fields _ k hnodup, hc]
    rfl

/-- Closed instance discharging the hypotheses of
`C7_update_by_id_with_fields_exact`: the spec's own example — payload
`{email: NULL_MARKER, name: "ignored"}` with `field_names=["email"]`
forces `email` to null and leaves `name` untouched although present in
the payload. -/
theorem C7_update_by_id_with_fields_witness :
    ∃ e1, (service_update_by_id_with_fields
      [⟨0, [("name", some (.sStr "b")), ("email", some (.sStr "a"))]⟩] 0
      [("name", FieldState.setVal (.sStr "ignored")), ("email", FieldState.setNone)]
      ["email"]).2 = some e1
      ∧ lookupKey e1.fields "email" = some none
      ∧ lookupKey e1.fields "name" = some (some (.sStr "b")) := by
  have h := C7_update_by_id_with_fields_exact
    [⟨0, [("name", some (.sStr "b")), ("email", some (.sStr "a"))]⟩] 0
    ⟨0, [("name", some (.sStr "b")), ("email", some (.sStr "a"))]⟩
    [("name", FieldState.setVal (.sStr "ignored")), ("email", FieldState.setNone)]
    ["email"] (by decide) (by decide)
  obtain ⟨e1, h1, -, h3, h4, -⟩ := h
  refine ⟨e1, h1, ?_, ?_⟩
  · have hx := h4 "email" FieldState.setNone (by decide) (by decide)
    simpa [stateCell] using hx
  · rw [h3 "name" (by decide)]
    decide

/-- **C5.** `paginate(page, per_page, schema)` with `page ≥ 1` and
`per_page ≥ 1` returns `(items, total_count)` where `total_count` is
the count of rows matching the schema's predicates, ignoring any
limit/offset the schema carries, and `items` are obtained from the
matching rows of a copy of the schema with `limit = per_page` and
`offset = (page-1)*per_page` — independently of the caller's own
`limit` / `offset`, which are never consulted (the formula below does
not mention them); `page < 1` or `per_page < 1` yields the
precondition error without issuing a query. -/
theorem C5_paginate_spec (store : Store) (fs : FilterSchema) (page per_page : Int)
    (hp : 1 ≤ page) (hpp : 1 ≤ per_page) :
    service_paginate store page per_page fs =
      .ok (((store.filter (fun e => rowMatches fs.conds e.fields)).drop
              ((page - 1) * per_page).toNat).take per_page.toNat,
           (store.filter (fun e => rowMatches fs.conds e.fields)).length)
    ∧ (∀ (p2 q2 : Int), p2 < 1 ∨ q2 < 1 →
        ∃ msg, service_paginate store p2 q2 fs = .error msg) := by
  constructor
  · have hnp : ¬ page < 1 := not_lt.mpr hp
    have hnpp : ¬ per_page < 1 := not_lt.mpr hpp
    have hlim : ¬ per_page < 0 := by omega
    have hoff : ¬ (page - 1) * per_page < 0 := by
      have h1 : (0 : Int) ≤ page - 1 := by omega
      have h2 : (0 : Int) ≤ per_page := by omega
      exact not_lt.mpr (mul_nonneg h1 h2)
    have hbase : apply_base_filters QueryBuilder.empty
        { fs with limit := some per_page, offset := some ((page - 1) * per_page) }
        = .ok ⟨fs.conds, some per_page, some ((page - 1) * per_page), []⟩ := by
      simp only [apply_base_filters, apply_filter_to_query, QueryBuilder.limit,
        QueryBuilder.offset, if_neg hlim, if_neg hoff, QueryBuilder.empty]
      rfl
    have hget : service_get_all store
        { fs with limit := some per_page, offset := some ((page - 1) * per_page) }
        = .ok (((store.filter (fun e => rowMatches fs.conds e.fields)).drop
            ((page - 1) * per_page).toNat).take per_page.toNat) := by
      rw [service_get_all, hbase]
      rfl
    have hcount : service_count store fs =
        (store.filter (fun e => rowMatches fs.conds e.fields)).length := by
      simp [service_count, apply_filter_to_query, QueryBuilder.empty, execute_typed_count]
    show (if page < 1 then _ else _) = _
    rw [if_neg hnp, if_neg hnpp]
    show (service_get_all store _).bind _ = _
    rw [hget]
    show Except.ok (_, service_count store fs) = _
    rw [hcount]
  · intro p2 q2 h2
    by_cases hp2 : p2 < 1
    · refine ⟨"Page must be at least 1", ?_⟩
      show (if p2 < 1 then _ else _) = _
      rw [if_pos hp2]
    · have hq2 : q2 < 1 := by
        rcases h2 with h | h
        · exact absurd h hp2
        · exact h
      refine ⟨"Per page must be at least 1", ?_⟩
      show (if p2 < 1 then _ else _) = _
      rw [if_neg hp2, if_pos hq2]

/-- Closed instance discharging the hypotheses of `C5_paginate_spec`:
page 2 of size 1 over a three-row store returns the second row and the
full filtered total of 3, and page 0 is rejected. -/
theorem C5_paginate_witness :
    service_paginate [⟨0, [("a", some (.sInt 1))]⟩, ⟨1, [("a", some (.sInt 2))]⟩,
        ⟨2, [("a", some (.sInt 3))]⟩] 2 1 ⟨[], none, none⟩
      = .ok ([⟨1, [("a", some (.sInt 2))]⟩], 3)
    ∧ ∃ msg, service_paginate ([] : Store) 0 1 ⟨[], none, none⟩ = .error msg := by
  constructor
  · rw [(C5_paginate_spec [⟨0, [("a", some (.sInt 1))]⟩, ⟨1, [("a", some (.sInt 2))]⟩,
      ⟨2, [("a", some (.sInt 3))]⟩] ⟨[], none, none⟩ 2 1 (by decide) (by decide)).1]
    rfl
  · exact (C5_paginate_spec ([] : Store) ⟨[], none, none⟩ 1 1 (by decide) (by decide)).2
      0 1 (Or.inl (by decide))

/-- **C10.** `find_one` runs the query with the limit forced to 1 and
returns the first row or `None`; whether the underlying execution
returns rows or raises, the builder handed back has its original
`limit_value` restored and its predicates, ordering clauses and offset
untouched (the final builder equals the initial one); instantiated on
the real `execute_typed_query`, the result is the head of the
filtered, offset-shifted row list. -/
theorem C10_find_one_restores_limit :
    (∀ (exec : QueryBuilder → Except String (List Entity)) (qb : QueryBuilder),
      find_one exec qb =
        ((match exec { qb with limit_value := some 1 } with
          | .ok rs => .ok rs.head?
          | .error e => .error e), qb))
    ∧ (∀ (store : Store) (qb : QueryBuilder), qb.order_by_clauses = [] →
        (find_one (fun b => .ok (execute_typed_query store b)) qb).1 =
          .ok ((match qb.offset_value with
            | some o =>
              (store.filter (fun (e : Entity) => rowMatches qb.filters e.fields)).drop o.toNat
            | none =>
              store.filter (fun (e : Entity) => rowMatches qb.filters e.fields)).head?)) := by
  have head_take : ∀ (l : List Entity), (l.take (1 : Int).toNat).head? = l.head? := by
    intro l
    cases l <;> rfl
  have hgen : ∀ (exec : QueryBuilder → Except String (List Entity)) (qb : QueryBuilder),
      find_one exec qb =
        ((match exec { qb with limit_value := some 1 } with
          | .ok rs => .ok rs.head?
          | .error e => .error e), qb) := by
    intro exec qb
    unfold find_one
    dsimp only
    cases exec { qb with limit_value := some 1 } <;> rfl
  refine ⟨hgen, ?_⟩
  intro store qb hord
  have hexec : execute_typed_query store { qb with limit_value := some 1 } =
      (match qb.offset_value with
        | some o =>
          (store.filter (fun (e : Entity) => rowMatches qb.filters e.fields)).drop o.toNat
        | none =>
          store.filter (fun (e : Entity) => rowMatches qb.filters e.fields)).take
        (1 : Int).toNat := by
    unfold execute_typed_query
    dsimp only
    rw [hord]
    rfl
  rw [hgen]
  dsimp only
  rw [hexec, head_take]

/-- Closed instance discharging the hypothesis of
`C10_find_one_restores_limit`: a successful call and a raising call,
both handing back the builder exactly as it was. -/
theorem C10_find_one_witness :
    find_one (fun b => .ok (execute_typed_query [⟨0, [("a", some (.sInt 1))]⟩] b))
        ⟨[], none, none, []⟩
      = (.ok (some ⟨0, [("a", some (.sInt 1))]⟩), ⟨[], none, none, []⟩)
    ∧ find_one (fun _ => .error "boom") ⟨[Cond.isNullC "a"], some 7, some 2, []⟩
      = (.error "boom", ⟨[Cond.isNullC "a"], some 7, some 2, []⟩)
    ∧ (find_one (fun b => .ok (execute_typed_query [⟨0, [("a", some (.sInt 1))]⟩] b))
        ⟨[], none, none, []⟩).1 = .ok (some ⟨0, [("a", some (.sInt 1))]⟩) := by
  refine ⟨?_, ?_, ?_⟩
  · rw [C10_find_one_restores_limit.1
      (fun b => .ok (execute_typed_query [⟨0, [("a", some (.sInt 1))]⟩] b))
      ⟨[], none, none, []⟩]
    rfl
  · rw [C10_find_one_restores_limit.1 (fun _ => .error "boom")
      ⟨[Cond.isNullC "a"], some 7, some 2, []⟩]
  · rw [C10_find_one_restores_limit.2 [⟨0, [("a", some (.sInt 1))]⟩]
      ⟨[], none, none, []⟩ rfl]
    rfl

/-! ## Detection lemmas for C3 -/

theorem firstNonNullOf_append (p : Payload) (l1 l2 : List String) :
    firstNonNullOf p (l1 ++ l2) =
      (match firstNonNullOf p l1 with
       | some v => some v
       | none => firstNonNullOf p l2) := by
  induction l1 with
  | nil => rfl
  | cons hd tl ih =>
    show firstNonNullOf p (hd :: (tl ++ l2)) = _
    rw [firstNonNullOf, firstNonNullOf]
    cases hk : lookupKey p hd with
    | none =>
      dsimp only
      exact ih
    | some v =>
      dsimp only
      by_cases hv : v = PyVal.atom .sNone
      · rw [if_pos hv, if_pos hv]
        exact ih
      · rw [if_neg hv, if_neg hv]

theorem firstNonNullOf_mem (p : Payload) (l : List String) (v : PyVal)
    (h : firstNonNullOf p l = some v) :
    ∃ k, k ∈ l ∧ lookupKey p k = some v ∧ v ≠ PyVal.atom .sNone := by
  induction l with
  | nil => exact absurd h (by simp [firstNonNullOf])
  | cons hd tl ih =>
    rw [firstNonNullOf] at h
    split at h
    · next w hw =>
      split at h
      · obtain ⟨k, hk1, hk2, hk3⟩ := ih h
        exact ⟨k, List.mem_cons_of_mem hd hk1, hk2, hk3⟩
      · next hne =>
        cases h
        exact ⟨hd, List.mem_cons_self hd tl, hw, hne⟩
    · obtain ⟨k, hk1, hk2, hk3⟩ := ih h
      exact ⟨k, List.mem_cons_of_mem hd hk1, hk2, hk3⟩

theorem firstSeqHead_mem (p : Payload) (l : List String) (x : PyScalar)
    (h : firstSeqHead p l = some x) :
    ∃ k xs, k ∈ l ∧ lookupKey p k = some (PyVal.vList (x :: xs)) := by
  induction l with
  | nil => exact absurd h (by simp [firstSeqHead])
  | cons hd tl ih =>
    rw [firstSeqHead] at h
    split at h
    · next x1 xs hw =>
      cases h
      exact ⟨hd, xs, List.mem_cons_self hd tl, hw⟩
    · obtain ⟨k, xs, hk1, hk2⟩ := ih h
      exact ⟨k, xs, List.mem_cons_of_mem hd hk1, hk2⟩

theorem detect_by_value_eq_shapeKindSpec (v : PyVal) :
    detect_filter_type_by_value v = shapeKindSpec v := by
  cases v with
  | atom s => cases s <;> rfl
  | vList xs => rfl

theorem hasKey_of_lookupKey (p : Payload) (k : String) (v : PyVal)
    (h : lookupKey p k = some v) : hasKey p k = true := by
  rw [hasKey, h]
  rfl

theorem wf_comp_atom (p : Payload) (h : payloadWF p = true) (k : String)
    (hk : k ∈ (["gt", "gte", "lt", "lte"] : List String)) (v : PyVal)
    (hv : (k, v) ∈ p) : ∃ s, v = PyVal.atom s := by
  have hall := List.all_eq_true.mp h (k, v) hv
  cases v with
  | atom s => exact ⟨s, rfl⟩
  | vList xs =>
    exfalso
    simp only [List.mem_cons, List.not_mem_nil, or_false] at hk
    rcases hk with rfl | rfl | rfl | rfl <;> simp [payloadWF] at hall


theorem wf_between_shape (p : Payload) (h : payloadWF p = true) (v : PyVal)
    (hv : ("between", v) ∈ p) :
    v = PyVal.atom .sNone ∨ ∃ xs, v = PyVal.vList xs := by
  have hall := List.all_eq_true.mp h ("between", v) hv
  cases v with
  | vList xs => exact Or.inr ⟨xs, rfl⟩
  | atom s =>
    cases s with
    | sNone => exact Or.inl rfl
    | sBool b => exfalso; simp [payloadWF] at hall
    | sInt n => exfalso; simp [payloadWF] at hall
    | sFloat n => exfalso; simp [payloadWF] at hall
    | sStr s => exfalso; simp [payloadWF] at hall
    | sDate n => exfalso; simp [payloadWF] at hall
    | sDateTime n => exfalso; simp [payloadWF] at hall

/-- **C3.** On well-formed payloads (sequence operators carry sequences
or null, scalar comparison operators carry scalars — the dump grammar
of the typed filter dataclasses), the source's detection agrees with
the claim's priority algorithm `detect_filter_type_spec` exactly:
string operators first, then comparison operators resolved temporal
versus numeric by the first non-null comparison value's shape, then
the shape of a non-null `eq`/`ne` value, then the shape of the first
element of a non-empty `in_`/`not_in`; everything else — including a
payload with only nullness operators — is undetermined, and schema
application silently skips an undetermined field instead of raising
(second conjunct). -/
theorem C3_detection_priority (p : Payload) (h : payloadWF p = true) :
    detect_filter_type p = detect_filter_type_spec p
    ∧ (∀ (qb : QueryBuilder) (cols : List String) (name : String),
        detect_filter_type p = none → cols.contains name = true →
        apply_filters_from_schema qb cols [(name, p)] = .ok qb) := by
  constructor
  · unfold detect_filter_type detect_filter_type_spec
    by_cases hs : STRING_OPS.any (hasKey p)
    · rw [if_pos hs, if_pos hs]
    · rw [if_neg hs, if_neg hs]
      by_cases hcomp : COMPARISON_OPS.any (hasKey p)
      · rw [if_pos hcomp, if_pos hcomp]
        have hsplit : firstNonNullOf p COMPARISON_OPS =
            (match firstNonNullOf p ["gt", "gte", "lt", "lte"] with
             | some v => some v
             | none => firstNonNullOf p ["between"]) :=
          firstNonNullOf_append p ["gt", "gte", "lt", "lte"] ["between"]
        rw [hsplit]
        unfold detect_comparison_filter_type
        cases h4 : firstNonNullOf p ["gt", "gte", "lt", "lte"] with
        | some v =>
          obtain ⟨k, hk1, hk2, hk3⟩ := firstNonNullOf_mem p _ v h4
          obtain ⟨s, rfl⟩ := wf_comp_atom p h k hk1 v (mem_of_lookupKey_eq_some hk2)
          rfl
        | none =>
          cases hb : lookupKey p "between" with
          | none =>
            have hfb : firstNonNullOf p ["between"] = none := by
              rw [firstNonNullOf, hb]
              rfl
            rw [hfb]
          | some v =>
            by_cases hv : v = PyVal.atom .sNone
            · subst hv
              have hfb : firstNonNullOf p ["between"] = none := by
                rw [firstNonNullOf, hb]
                dsimp only
                rw [if_pos rfl]
                rfl
              rw [hfb]
            · have hfb : firstNonNullOf p ["between"] = some v := by
                rw [firstNonNullOf, hb]
                dsimp only
                rw [if_neg hv]
              rw [hfb]
              rcases wf_between_shape p h v (mem_of_lookupKey_eq_some hb) with
                hnv | ⟨xs, rfl⟩
              · exact absurd hnv hv
              · cases xs with
                | nil => rfl
                | cons x xtl => rfl
      · rw [if_neg hcomp, if_neg hcomp]
        cases he : firstNonNullOf p ["eq", "ne"] with
        | some v =>
          obtain ⟨k, hk1, hk2, hk3⟩ := firstNonNullOf_mem p _ v he
          have hguard : (["eq", "ne", "in_", "not_in"].any (hasKey p)) = true := by
            rw [List.any_eq_true]
            refine ⟨k, ?_, hasKey_of_lookupKey p k v hk2⟩
            simp only [List.mem_cons, List.not_mem_nil, or_false] at hk1 ⊢
            rcases hk1 with rfl | rfl
            · exact Or.inl rfl
            · exact Or.inr (Or.inl rfl)
          rw [if_pos hguard]
          exact detect_by_value_eq_shapeKindSpec v
        | none =>
          cases hseq : firstSeqHead p ["in_", "not_in"] with
          | some x =>
            obtain ⟨k, xs, hk1, hk2⟩ := firstSeqHead_mem p _ x hseq
            have hguard : (["eq", "ne", "in_", "not_in"].any (hasKey p)) = true := by
              rw [List.any_eq_true]
              refine ⟨k, ?_, hasKey_of_lookupKey p k _ hk2⟩
              simp only [List.mem_cons, List.not_mem_nil, or_false] at hk1 ⊢
              rcases hk1 with rfl | rfl
              · exact Or.inr (Or.inr (Or.inl rfl))
              · exact Or.inr (Or.inr (Or.inr rfl))
            rw [if_pos hguard]
            exact detect_by_value_eq_shapeKindSpec (PyVal.atom x)
          | none =>
            by_cases hguard : (["eq", "ne", "in_", "not_in"].any (hasKey p)) = true
            · rw [if_pos hguard]
            · rw [if_neg hguard]
  · intro qb cols name hdet hc
    show List.foldlM _ _ _ = _
    rw [List.foldlM_cons]
    simp only [hc, Bool.not_true, hdet]
    rfl

/-- Closed instance discharging the hypotheses of
`C3_detection_priority` on representative well-formed payloads: the
code detector and the claim's algorithm agree, and an
only-nullness field is skipped by schema application. -/
theorem C3_detection_priority_witness :
    detect_filter_type [("like", PyVal.atom .sNone), ("eq", PyVal.atom (.sInt 3))]
      = detect_filter_type_spec [("like", PyVal.atom .sNone), ("eq", PyVal.atom (.sInt 3))]
    ∧ detect_filter_type [("gt", PyVal.atom (.sDateTime 5))]
      = detect_filter_type_spec [("gt", PyVal.atom (.sDateTime 5))]
    ∧ apply_filters_from_schema QueryBuilder.empty ["age"]
        [("age", [("is_null", PyVal.atom (.sBool true))])] = .ok QueryBuilder.empty := by
  refine ⟨(C3_detection_priority [("like", PyVal.atom .sNone),
      ("eq", PyVal.atom (.sInt 3))] (by decide)).1,
    (C3_detection_priority [("gt", PyVal.atom (.sDateTime 5))] (by decide)).1,
    (C3_detection_priority [("is_null", PyVal.atom (.sBool true))] (by decide)).2
      QueryBuilder.empty ["age"] "age" (by decide) (by decide)⟩

end Dplex
